import Mathlib

/-!
Shallow embedding of the group-assignment optimizer
(`src/optimize.py`, `src/optimization.py`) of the
kleine_stromer_kitaplatz_vormerkung repository.

Scalars that are Python floats (weights, penalties, points, solver
values) are modelled as `Rat`; ages and capacities (Python ints) as
`Int`; the pandas DataFrame as an explicit column list plus a list of
typed rows with the default RangeIndex 0,1,2,… as row identity.

The PuLP modelling library is an external collaborator (spec §4.4).
Its expression semantics used by the code are modelled explicitly:
multiplying a linear expression by the scalar 0 yields the empty
expression (PuLP `LpAffineExpression.__mul__` guards `if other != 0`),
and a variable belongs to the built model exactly when it occurs in
the objective or in some constraint (`LpProblem.variables`): merely
calling `LpVariable.dicts` does not put a variable into the model.
The solver call `prob.solve()` is opaque; the read-back of
`x[(i, j)].varValue` after it is modelled as an input valuation
`sol : Nat → String → Option Rat` (value `none` models a variable
whose `varValue` is Python `None`).
-/

namespace Kita

/-- One roster record. Field names follow the German column names of the
DataFrame: `gruppe` = 'Gruppe' (nullable group), `age` = 'Age',
`geschlecht` = 'Geschlecht', `gesamtpunkte` = 'Gesamtpunkte',
`geaendert` / `geaendertVon` = the audit columns 'Geändert' and
'Geändert von' (absent modelled as `none`). -/
structure Row where
  gruppe : Option String
  age : Int
  geschlecht : String
  gesamtpunkte : Rat
  geaendert : Option String
  geaendertVon : Option String
deriving DecidableEq

/-- A pandas DataFrame with default integer index: the set of column
labels plus the list of rows (row `i` of the frame is `rows[i]`). -/
structure DataFrame where
  cols : List String
  rows : List Row
deriving DecidableEq

/-- Default row used for out-of-range reads (never reached on the
indices the code actually touches). -/
def dfltRow : Row := ⟨none, 0, "", 0, none, none⟩

/-- Row lookup `df.loc[i]` / `df.rows[i]`. -/
def rowAt (df : DataFrame) (i : Nat) : Row := df.rows.getD i dfltRow

/-- The required columns checked by the validation step
(optimize.py line 50). -/
def requiredColumns : List String := ["Gruppe", "Age", "Geschlecht", "Gesamtpunkte"]

/-- Indices of rows whose 'Gruppe' is null, starting the count at `n`:
helper for `unassignedIndices`. -/
def unassignedFrom : Nat → List Row → List Nat
  | _, [] => []
  | n, r :: rs =>
      if r.gruppe = none then n :: unassignedFrom (n + 1) rs
      else unassignedFrom (n + 1) rs

/-- Positions of the free persons:
`df_opt[df_opt['Gruppe'].isnull()].index.tolist()` (optimize.py line 55). -/
def unassignedIndices (df : DataFrame) : List Nat := unassignedFrom 0 df.rows

/-- First-occurrence deduplication with the values already seen as an
accumulator: helper for `pdUnique`. -/
def pdUniqueAux (seen : List Int) : List Int → List Int
  | [] => []
  | a :: l => if a ∈ seen then pdUniqueAux seen l else a :: pdUniqueAux (a :: seen) l

/-- First-occurrence deduplication, the order `pandas.Series.unique`
returns distinct values in. -/
def pdUnique (l : List Int) : List Int := pdUniqueAux [] l

/-- The distinct age values of the full roster:
`df_opt['Age'].unique()` (optimize.py line 59). -/
def ageClasses (df : DataFrame) : List Int := pdUnique (df.rows.map (·.age))

/-- Group names: the keys of the `group_capacities` dict
(optimize.py line 58). -/
def groupNames (caps : List (String × Int)) : List String := caps.map Prod.fst

/-- Capacity lookup `group_capacities[j]` (keys of a Python dict are
distinct, and `j` is always drawn from them, so the default is never
reached). -/
def capOf (caps : List (String × Int)) (j : String) : Int := (caps.lookup j).getD 0

/-- Number of persons already placed in group `j`:
`df_opt[df_opt['Gruppe'] == j].shape[0]` (optimize.py line 89); a null
group never equals `j`, so only fixed persons are counted. -/
def fixedCount (df : DataFrame) (j : String) : Nat :=
  (df.rows.filter (fun r => r.gruppe = some j)).length

/-- The decision and helper variables the code creates
(optimize.py lines 66-74): `assign` is the binary x[(i, j)], `gGap` is
abs_diff_gender[(k, j)], `aGap` is abs_diff_age[j], `sv` is s[(k, j)]
and `tv` is t[j]. -/
inductive VarId where
  | assign (i : Nat) (j : String)
  | gGap (k : Int) (j : String)
  | aGap (j : String)
  | sv (k : Int) (j : String)
  | tv (j : String)
deriving DecidableEq

/-- A linear expression: a list of (coefficient, variable) terms plus a
constant, modelling a PuLP `LpAffineExpression`. -/
structure LinExp where
  terms : List (Rat × VarId)
  const : Rat
deriving DecidableEq

/-- Value of a linear expression under a valuation of the variables. -/
def LinExp.eval (v : VarId → Rat) (e : LinExp) : Rat :=
  (e.terms.map (fun t => t.1 * v t.2)).sum + e.const

/-- Scalar multiple of an expression with PuLP semantics
(`LpAffineExpression.__mul__`): a zero scalar yields the empty
expression, so its variables drop out of the model entirely. -/
def LinExp.smul (c : Rat) (e : LinExp) : LinExp :=
  if c = 0 then ⟨[], 0⟩ else ⟨e.terms.map (fun t => (c * t.1, t.2)), c * e.const⟩

/-- Negation of every term of an expression, as PuLP subtraction
applies to the subtrahend. -/
def LinExp.negTerms (e : LinExp) : List (Rat × VarId) :=
  e.terms.map (fun t => (-t.1, t.2))

/-- Comparison sense of a linear constraint. -/
inductive Sense where
  | le
  | ge
  | eq
deriving DecidableEq

/-- A linear constraint `lhs (≤ | ≥ | =) rhs`. -/
structure LinCon where
  lhs : LinExp
  sense : Sense
  rhs : LinExp
deriving DecidableEq

/-- Satisfaction of one constraint by a valuation. -/
def LinCon.holds (v : VarId → Rat) (c : LinCon) : Prop :=
  match c.sense with
  | .le => c.lhs.eval v ≤ c.rhs.eval v
  | .ge => c.rhs.eval v ≤ c.lhs.eval v
  | .eq => c.lhs.eval v = c.rhs.eval v

instance (v : VarId → Rat) (c : LinCon) : Decidable (c.holds v) := by
  unfold LinCon.holds
  cases c.sense <;> infer_instance

/-- Single-assignment constraints (optimize.py lines 84-85): for each
free person, the sum over all groups of x[(i, j)] equals 1. -/
def singleAssignCons (df : DataFrame) (caps : List (String × Int)) : List LinCon :=
  (unassignedIndices df).map (fun i =>
    ⟨⟨(groupNames caps).map (fun j => ((1 : Rat), VarId.assign i j)), 0⟩, .eq, ⟨[], 1⟩⟩)

/-- Capacity constraints (optimize.py lines 88-90): for each group,
the sum of x[(i, j)] plus the fixed occupancy is at most the capacity. -/
def capacityCons (df : DataFrame) (caps : List (String × Int)) : List LinCon :=
  (groupNames caps).map (fun j =>
    ⟨⟨(unassignedIndices df).map (fun i => ((1 : Rat), VarId.assign i j)),
      (fixedCount df j : Rat)⟩, .le, ⟨[], (capOf caps j : Rat)⟩⟩)

/-- Free persons of age `k` and gender `g`
(the filters inside optimize.py lines 96-97). -/
def genderIdx (df : DataFrame) (g : String) (k : Int) : List Nat :=
  (unassignedIndices df).filter
    (fun i => (rowAt df i).geschlecht == g && (rowAt df i).age == k)

/-- The expression `male_count - female_count` (optimize.py line 100). -/
def maleMinusFemale (df : DataFrame) (k : Int) (j : String) : LinExp :=
  ⟨(genderIdx df "männlich" k).map (fun i => ((1 : Rat), VarId.assign i j))
    ++ (genderIdx df "weiblich" k).map (fun i => ((-1 : Rat), VarId.assign i j)), 0⟩

/-- The expression `female_count - male_count` (optimize.py line 101). -/
def femaleMinusMale (df : DataFrame) (k : Int) (j : String) : LinExp :=
  ⟨(genderIdx df "weiblich" k).map (fun i => ((1 : Rat), VarId.assign i j))
    ++ (genderIdx df "männlich" k).map (fun i => ((-1 : Rat), VarId.assign i j)), 0⟩

/-- The three gender-balance constraints for one (group, age class)
pair (optimize.py lines 100-102). -/
def genderConsFor (df : DataFrame) (j : String) (k : Int) : List LinCon :=
  [⟨⟨[((1 : Rat), VarId.gGap k j)], 0⟩, .ge, maleMinusFemale df k j⟩,
   ⟨⟨[((1 : Rat), VarId.gGap k j)], 0⟩, .ge, femaleMinusMale df k j⟩,
   ⟨⟨[((1 : Rat), VarId.sv k j)], 0⟩, .ge, ⟨[((1 : Rat), VarId.gGap k j)], 0⟩⟩]

/-- Gender-balance constraints, generated only when the weight is
positive (optimize.py lines 93-102). -/
def genderCons (df : DataFrame) (caps : List (String × Int))
    (gender_balance_weight : Rat) : List LinCon :=
  if gender_balance_weight > 0 then
    (groupNames caps).flatMap (fun j =>
      (ageClasses df).flatMap (fun k => genderConsFor df j k))
  else []

/-- Free persons of age `k` (the filter inside optimize.py line 109). -/
def ageIdx (df : DataFrame) (k : Int) : List Nat :=
  (unassignedIndices df).filter (fun i => (rowAt df i).age == k)

/-- The expression `age_count - total_count` (optimize.py line 112);
PuLP merges coefficients per variable, which evaluates identically to
this concatenated form. -/
def ageMinusTotal (df : DataFrame) (k : Int) (j : String) : LinExp :=
  ⟨(ageIdx df k).map (fun i => ((1 : Rat), VarId.assign i j))
    ++ (unassignedIndices df).map (fun i => ((-1 : Rat), VarId.assign i j)), 0⟩

/-- The expression `total_count - age_count` (optimize.py line 113). -/
def totalMinusAge (df : DataFrame) (k : Int) (j : String) : LinExp :=
  ⟨(unassignedIndices df).map (fun i => ((1 : Rat), VarId.assign i j))
    ++ (ageIdx df k).map (fun i => ((-1 : Rat), VarId.assign i j)), 0⟩

/-- The three age-balance constraints for one (group, age class) pair
(optimize.py lines 112-114; the t-link is inside the inner loop). -/
def ageConsFor (df : DataFrame) (j : String) (k : Int) : List LinCon :=
  [⟨⟨[((1 : Rat), VarId.aGap j)], 0⟩, .ge, ageMinusTotal df k j⟩,
   ⟨⟨[((1 : Rat), VarId.aGap j)], 0⟩, .ge, totalMinusAge df k j⟩,
   ⟨⟨[((1 : Rat), VarId.tv j)], 0⟩, .ge, ⟨[((1 : Rat), VarId.aGap j)], 0⟩⟩]

/-- Age-balance constraints, generated only when the weight is
positive (optimize.py lines 105-114). -/
def ageCons (df : DataFrame) (caps : List (String × Int))
    (age_balance_weight : Rat) : List LinCon :=
  if age_balance_weight > 0 then
    (groupNames caps).flatMap (fun j =>
      (ageClasses df).flatMap (fun k => ageConsFor df j k))
  else []

/-- Minimum-age constraints (optimize.py lines 117-121): generated only
when a dict was passed, and only for groups present in it. A passed
empty dict is falsy in Python and skips the block, but it also
generates nothing here, so the semantics agree. -/
def minAgeCons (df : DataFrame) (caps : List (String × Int))
    (min_age_limits : Option (List (String × Int))) : List LinCon :=
  match min_age_limits with
  | none => []
  | some lim =>
      (groupNames caps).filterMap (fun j =>
        (lim.lookup j).map (fun m =>
          ⟨⟨((unassignedIndices df).filter (fun i => decide ((rowAt df i).age < m))).map
              (fun i => ((1 : Rat), VarId.assign i j)), 0⟩, .eq, ⟨[], 0⟩⟩))

/-- Maximum-age constraints (optimize.py lines 123-127). -/
def maxAgeCons (df : DataFrame) (caps : List (String × Int))
    (max_age_limits : Option (List (String × Int))) : List LinCon :=
  match max_age_limits with
  | none => []
  | some lim =>
      (groupNames caps).filterMap (fun j =>
        (lim.lookup j).map (fun m =>
          ⟨⟨((unassignedIndices df).filter (fun i => decide (m < (rowAt df i).age))).map
              (fun i => ((1 : Rat), VarId.assign i j)), 0⟩, .eq, ⟨[], 0⟩⟩))

/-- All constraints of the problem, in the order the code adds them
(optimize.py lines 83-127). -/
def allCons (df : DataFrame) (caps : List (String × Int))
    (gender_balance_weight age_balance_weight : Rat)
    (min_age_limits max_age_limits : Option (List (String × Int))) : List LinCon :=
  singleAssignCons df caps ++ capacityCons df caps
    ++ genderCons df caps gender_balance_weight
    ++ ageCons df caps age_balance_weight
    ++ minAgeCons df caps min_age_limits
    ++ maxAgeCons df caps max_age_limits

/-- The points sum of the objective (optimize.py line 78, before the
weight is applied). -/
def pointsExp (df : DataFrame) (caps : List (String × Int)) : LinExp :=
  ⟨(unassignedIndices df).flatMap (fun i =>
      (groupNames caps).map (fun j => ((rowAt df i).gesamtpunkte, VarId.assign i j))), 0⟩

/-- The gender-gap sum of the objective (optimize.py line 79, before
the weights are applied). -/
def genderGapExp (df : DataFrame) (caps : List (String × Int)) : LinExp :=
  ⟨(ageClasses df).flatMap (fun k =>
      (groupNames caps).map (fun j => ((1 : Rat), VarId.gGap k j))), 0⟩

/-- The age-gap sum of the objective (optimize.py line 80, before the
weights are applied). -/
def ageGapExp (caps : List (String × Int)) : LinExp :=
  ⟨(groupNames caps).map (fun j => ((1 : Rat), VarId.aGap j)), 0⟩

/-- The objective expression (optimize.py lines 77-81): the points term
minus the two weighted penalty terms; the subtracted terms are scaled
with the PuLP zero-guard semantics of `LinExp.smul` and their
coefficients negated by the subtraction. -/
def objective (df : DataFrame) (caps : List (String × Int))
    (points_weight gender_balance_weight age_balance_weight : Rat)
    (abs_diff_gender_penalty abs_diff_age_penalty : Rat) : LinExp :=
  ⟨(LinExp.smul points_weight (pointsExp df caps)).terms
    ++ (LinExp.smul (gender_balance_weight * abs_diff_gender_penalty)
          (genderGapExp df caps)).negTerms
    ++ (LinExp.smul (age_balance_weight * abs_diff_age_penalty)
          (ageGapExp caps)).negTerms, 0⟩

/-- The built model: objective plus constraint list. -/
structure Model where
  obj : LinExp
  cons : List LinCon
deriving DecidableEq

/-- Assembly of the whole MILP from the inputs, mirroring
optimize.py lines 54-127. -/
def buildModel (df : DataFrame) (caps : List (String × Int))
    (points_weight gender_balance_weight age_balance_weight : Rat)
    (min_age_limits max_age_limits : Option (List (String × Int)))
    (abs_diff_gender_penalty abs_diff_age_penalty : Rat) : Model :=
  ⟨objective df caps points_weight gender_balance_weight age_balance_weight
      abs_diff_gender_penalty abs_diff_age_penalty,
    allCons df caps gender_balance_weight age_balance_weight
      min_age_limits max_age_limits⟩

/-- Variables occurring in an expression. -/
def LinExp.vars (e : LinExp) : List VarId := e.terms.map Prod.snd

/-- Variables occurring in a constraint. -/
def LinCon.vars (c : LinCon) : List VarId := c.lhs.vars ++ c.rhs.vars

/-- Variables of the built model, as `LpProblem.variables` collects
them: those referenced by the objective or by some constraint. -/
def Model.vars (m : Model) : List VarId :=
  m.obj.vars ++ m.cons.flatMap LinCon.vars

/-- Domain conditions of the declared variables: x[(i, j)] is binary
(optimize.py line 66), all helper variables have lower bound 0
(lines 69-74). -/
def varBounds (df : DataFrame) (caps : List (String × Int)) (v : VarId → Rat) : Prop :=
  (∀ i ∈ unassignedIndices df, ∀ j ∈ groupNames caps,
      v (VarId.assign i j) = 0 ∨ v (VarId.assign i j) = 1)
  ∧ (∀ k ∈ ageClasses df, ∀ j ∈ groupNames caps,
      0 ≤ v (VarId.sv k j) ∧ 0 ≤ v (VarId.gGap k j))
  ∧ (∀ j ∈ groupNames caps, 0 ≤ v (VarId.tv j) ∧ 0 ≤ v (VarId.aGap j))

/-- Feasibility of a valuation for the built problem: variable domains
plus every generated constraint. -/
def feasible (df : DataFrame) (caps : List (String × Int))
    (gender_balance_weight age_balance_weight : Rat)
    (min_age_limits max_age_limits : Option (List (String × Int)))
    (v : VarId → Rat) : Prop :=
  varBounds df caps v
  ∧ ∀ c ∈ allCons df caps gender_balance_weight age_balance_weight
      min_age_limits max_age_limits, c.holds v

instance (df : DataFrame) (caps : List (String × Int))
    (gbw abw : Rat) (minL maxL : Option (List (String × Int))) (v : VarId → Rat) :
    Decidable (feasible df caps gbw abw minL maxL v) := by
  unfold feasible varBounds
  infer_instance

/-- Column list extended by one label unless already present, the way
`df.at[i, c] = value` behaves for a column `c`. -/
def addCol (cols : List String) (c : String) : List String :=
  if c ∈ cols then cols else cols ++ [c]

/-- Column list after the audit columns were written with `df.at`:
pandas appends a missing column label (optimize.py lines 138-139). -/
def auditAddCols (cols : List String) : List String :=
  addCol (addCol cols "Geändert") "Geändert von"

/-- Row update performed on a newly assigned person
(optimize.py lines 137-139). -/
def setAssigned (now : String) (j : String) (r : Row) : Row :=
  { r with gruppe := some j, geaendert := some now,
           geaendertVon := some "Optimization algorithm" }

/-- In-place update of the row at one index, other rows untouched. -/
def modifyRow : List Row → Nat → (Row → Row) → List Row
  | [], _, _ => []
  | r :: rs, 0, f => f r :: rs
  | r :: rs, n + 1, f => r :: modifyRow rs n f

/-- One iteration of the inner loop of the result materializer
(optimize.py lines 135-139): if the solver read-back of x[(i, j)] is 1,
write group and audit stamps into row i. -/
def assignStep (now : String) (sol : Nat → String → Option Rat) (i : Nat)
    (df : DataFrame) (j : String) : DataFrame :=
  if sol i j = some 1 then
    ⟨auditAddCols df.cols, modifyRow df.rows i (setAssigned now j)⟩
  else df

/-- The inner loop over all groups for one free person; a later match
overwrites an earlier one, as sequential assignment does. -/
def materializeRow (gs : List String) (now : String) (sol : Nat → String → Option Rat)
    (df : DataFrame) (i : Nat) : DataFrame :=
  gs.foldl (assignStep now sol i) df

/-- The result materializer (optimize.py lines 133-139): the loop over
all free persons, each running the inner loop over all groups. -/
def materialize (df : DataFrame) (gs : List String) (un : List Nat)
    (now : String) (sol : Nat → String → Option Rat) : DataFrame :=
  un.foldl (materializeRow gs now sol) df

/-- The whole operation `optimize_group_assignment`
(optimize.py lines 23-141). After `df.copy()` it validates the required
columns and raises a ValueError when one is missing; otherwise it
builds the model, calls `prob.solve()` — an external solver whose
status the code never inspects — and unconditionally materializes the
read-back variable values `sol` into the roster. `now` stands for the
formatted `datetime.now()`. The parameter `age_distribution_weight` is
accepted and never used, exactly as in the source. -/
def optimize_group_assignment (df : DataFrame) (caps : List (String × Int))
    (points_weight age_distribution_weight gender_balance_weight age_balance_weight : Rat)
    (min_age_limits max_age_limits : Option (List (String × Int)))
    (abs_diff_gender_penalty abs_diff_age_penalty : Rat)
    (sol : Nat → String → Option Rat) (now : String) : Except String DataFrame :=
  if requiredColumns.all (fun c => df.cols.contains c) then
    Except.ok (materialize df (groupNames caps) (unassignedIndices df) now sol)
  else
    Except.error
      "DataFrame must contain the following columns: [Gruppe, Age, Geschlecht, Gesamtpunkte]"

/-- The UI call site (optimization.py lines 168-170): six positional
arguments, so `min_age_limits` and `max_age_limits` keep their default
None and the penalties their default 1.0. -/
def display_call (df : DataFrame) (caps : List (String × Int))
    (points_weight age_dist_weight gender_dist_weight age_consistency_weight : Rat)
    (sol : Nat → String → Option Rat) (now : String) : Except String DataFrame :=
  optimize_group_assignment df caps points_weight age_dist_weight
    gender_dist_weight age_consistency_weight none none 1 1 sol now

/-- A calendar date, with the components Python compares. -/
structure SimpleDate where
  year : Int
  month : Int
  day : Int
deriving DecidableEq

/-- Lexicographic comparison of (month, day) pairs, the semantics of
the Python tuple comparison in optimize.py line 20. -/
def pairLt (a b : Int × Int) : Bool :=
  a.1 < b.1 || (a.1 == b.1 && a.2 < b.2)

/-- The age derivation (optimize.py lines 9-21) with the ambient
`datetime.today()` made an explicit second argument: the year
difference minus the boolean (1 or 0) of the tuple comparison. -/
def calculate_age (birthdate : SimpleDate) (today : SimpleDate) : Int :=
  today.year - birthdate.year
    - (if pairLt (today.month, today.day) (birthdate.month, birthdate.day) then 1 else 0)

/-- Modelled from the spec: the calendar-age formula of spec §6,
`age = currentYear − birthYear − 1 if (currentMonth, currentDay) <
(birthMonth, birthDay) else currentYear − birthYear`, written as the
spec words it, for comparison with `calculate_age`. -/
def calendarAgeSpec (birthdate : SimpleDate) (today : SimpleDate) : Int :=
  if pairLt (today.month, today.day) (birthdate.month, birthdate.day) then
    today.year - birthdate.year - 1
  else
    today.year - birthdate.year

/-! Helper lemmas about list sums of variable values. -/

theorem eval_map_one {α : Type} (v : VarId → Rat) (l : List α) (g : α → VarId) (c : Rat) :
    LinExp.eval v ⟨l.map (fun a => ((1 : Rat), g a)), c⟩
      = (l.map (fun a => v (g a))).sum + c := by
  simp [LinExp.eval, List.map_map, Function.comp_def]

theorem sum_zero_of_nonneg {α : Type} {l : List α} {f : α → Rat}
    (h0 : ∀ a ∈ l, 0 ≤ f a) (hs : (l.map f).sum = 0) : ∀ a ∈ l, f a = 0 := by
  induction l with
  | nil => simp
  | cons b t ih =>
    simp only [List.map_cons, List.sum_cons] at hs
    have hb : 0 ≤ f b := h0 b (by simp)
    have ht : 0 ≤ (t.map f).sum := by
      refine List.sum_nonneg ?_
      intro x hx
      obtain ⟨a, ha, rfl⟩ := List.mem_map.mp hx
      exact h0 a (by simp [ha])
    have hb0 : f b = 0 := by linarith
    have hts : (t.map f).sum = 0 := by linarith
    intro a ha
    rcases List.mem_cons.mp ha with rfl | ha2
    · exact hb0
    · exact ih (fun x hx => h0 x (by simp [hx])) hts a ha2

theorem binary_sum_one {α : Type} {l : List α} {f : α → Rat}
    (hb : ∀ a ∈ l, f a = 0 ∨ f a = 1) (hs : (l.map f).sum = 1) :
    ∃! a, a ∈ l ∧ f a = 1 := by
  induction l with
  | nil => simp at hs
  | cons b t ih =>
    simp only [List.map_cons, List.sum_cons] at hs
    rcases hb b (by simp) with h0 | h1
    · rw [h0, zero_add] at hs
      obtain ⟨a, ⟨hal, haf⟩, hu⟩ := ih (fun x hx => hb x (by simp [hx])) hs
      refine ⟨a, ⟨by simp [hal], haf⟩, ?_⟩
      rintro y ⟨hy, hyf⟩
      rcases List.mem_cons.mp hy with rfl | hy2
      · rw [h0] at hyf; norm_num at hyf
      · exact hu y ⟨hy2, hyf⟩
    · rw [h1] at hs
      have hts : (t.map f).sum = 0 := by linarith
      have hz : ∀ a ∈ t, f a = 0 := by
        refine sum_zero_of_nonneg ?_ hts
        intro a ha
        rcases hb a (by simp [ha]) with h | h <;> simp [h]
      refine ⟨b, ⟨by simp, h1⟩, ?_⟩
      rintro y ⟨hy, hyf⟩
      rcases List.mem_cons.mp hy with rfl | hy2
      · rfl
      · rw [hz y hy2] at hyf; norm_num at hyf

theorem binary_sum_countP {α : Type} {l : List α} {f : α → Rat}
    (hb : ∀ a ∈ l, f a = 0 ∨ f a = 1) :
    (l.map f).sum = (l.countP (fun a => decide (f a = 1)) : Rat) := by
  induction l with
  | nil => simp
  | cons b t ih =>
    have iht := ih (fun x hx => hb x (by simp [hx]))
    rcases hb b (by simp) with h0 | h1
    · have : ¬ (f b = 1) := by rw [h0]; norm_num
      simp [List.countP_cons, h0, this, iht]
    · simp only [List.map_cons, List.sum_cons, List.countP_cons, h1, iht,
        decide_eq_true_eq, if_pos]
      push_cast
      ring

theorem minAge_sub_allCons (df : DataFrame) (caps : List (String × Int))
    (gbw abw : Rat) (minL maxL : Option (List (String × Int))) (c : LinCon)
    (h : c ∈ minAgeCons df caps minL) : c ∈ allCons df caps gbw abw minL maxL := by
  simp only [allCons, List.mem_append]
  exact Or.inl (Or.inr h)

theorem maxAge_sub_allCons (df : DataFrame) (caps : List (String × Int))
    (gbw abw : Rat) (minL maxL : Option (List (String × Int))) (c : LinCon)
    (h : c ∈ maxAgeCons df caps maxL) : c ∈ allCons df caps gbw abw minL maxL := by
  simp only [allCons, List.mem_append]
  exact Or.inr h

theorem sum_map_flatMap {α β : Type} (l : List α) (f : α → List β) (h : β → Rat) :
    ((l.flatMap f).map h).sum = (l.map (fun a => ((f a).map h).sum)).sum := by
  induction l with
  | nil => simp
  | cons b t ih => simp [List.flatMap_cons, ih]

/-! Theorems settling the claims about the constraint system. -/

/-- C3: at any feasible solution of the built model, every free person
(row with null Gruppe) is assigned to exactly one group: the sum of the
decision variables over all groups is 1, so nobody is omitted and
nobody is counted in two groups. -/
theorem single_assignment_at_feasible
    (df : DataFrame) (caps : List (String × Int)) (gbw abw : Rat)
    (minL maxL : Option (List (String × Int))) (v : VarId → Rat)
    (hf : feasible df caps gbw abw minL maxL v)
    (i : Nat) (hi : i ∈ unassignedIndices df) :
    ((groupNames caps).map (fun j => v (VarId.assign i j))).sum = 1
    ∧ ∃! j, j ∈ groupNames caps ∧ v (VarId.assign i j) = 1 := by
  have h1 : (⟨⟨(groupNames caps).map (fun j => ((1 : Rat), VarId.assign i j)), 0⟩,
      .eq, ⟨[], 1⟩⟩ : LinCon) ∈ singleAssignCons df caps :=
    List.mem_map_of_mem _ hi
  have hmem : (⟨⟨(groupNames caps).map (fun j => ((1 : Rat), VarId.assign i j)), 0⟩,
      .eq, ⟨[], 1⟩⟩ : LinCon) ∈ allCons df caps gbw abw minL maxL := by
    simp only [allCons, List.mem_append]
    exact Or.inl (Or.inl (Or.inl (Or.inl (Or.inl h1))))
  have hh := hf.2 _ hmem
  unfold LinCon.holds at hh
  simp only at hh
  rw [eval_map_one] at hh
  have hsum : ((groupNames caps).map (fun j => v (VarId.assign i j))).sum = 1 := by
    simpa [LinExp.eval] using hh
  refine ⟨hsum, binary_sum_one ?_ hsum⟩
  intro j hj
  exact hf.1.1 i hi j hj

/-- C4: at any feasible solution, the occupancy of every group — the
fixed persons already in it plus the free persons newly assigned to
it — never exceeds its configured capacity. -/
theorem capacity_at_feasible
    (df : DataFrame) (caps : List (String × Int)) (gbw abw : Rat)
    (minL maxL : Option (List (String × Int))) (v : VarId → Rat)
    (hf : feasible df caps gbw abw minL maxL v)
    (j : String) (hj : j ∈ groupNames caps) :
    (fixedCount df j : Rat)
      + ((unassignedIndices df).countP (fun i => decide (v (VarId.assign i j) = 1)) : Rat)
      ≤ (capOf caps j : Rat) := by
  have h1 : (⟨⟨(unassignedIndices df).map (fun i => ((1 : Rat), VarId.assign i j)),
      (fixedCount df j : Rat)⟩, .le, ⟨[], (capOf caps j : Rat)⟩⟩ : LinCon)
      ∈ capacityCons df caps :=
    List.mem_map_of_mem _ hj
  have hmem : (⟨⟨(unassignedIndices df).map (fun i => ((1 : Rat), VarId.assign i j)),
      (fixedCount df j : Rat)⟩, .le, ⟨[], (capOf caps j : Rat)⟩⟩ : LinCon)
      ∈ allCons df caps gbw abw minL maxL := by
    simp only [allCons, List.mem_append]
    exact Or.inl (Or.inl (Or.inl (Or.inl (Or.inr h1))))
  have hh := hf.2 _ hmem
  unfold LinCon.holds at hh
  simp only at hh
  rw [eval_map_one] at hh
  have hb : ∀ i ∈ unassignedIndices df,
      v (VarId.assign i j) = 0 ∨ v (VarId.assign i j) = 1 :=
    fun i hi => hf.1.1 i hi j hj
  rw [binary_sum_countP hb] at hh
  have he : LinExp.eval v ⟨[], (capOf caps j : Rat)⟩ = (capOf caps j : Rat) := by
    simp [LinExp.eval]
  rw [he] at hh
  linarith

/-- C5: whenever a minimum (or maximum) age limit is configured for a
group, no free person below (or above) the bound is assigned to that
group at any feasible solution, for every weight configuration. -/
theorem age_limits_at_feasible
    (df : DataFrame) (caps : List (String × Int)) (gbw abw : Rat)
    (minL maxL : Option (List (String × Int))) (v : VarId → Rat)
    (hf : feasible df caps gbw abw minL maxL v) :
    (∀ lim, minL = some lim → ∀ j ∈ groupNames caps, ∀ m, lim.lookup j = some m →
      ∀ i ∈ unassignedIndices df, (rowAt df i).age < m → v (VarId.assign i j) = 0)
    ∧ (∀ lim, maxL = some lim → ∀ j ∈ groupNames caps, ∀ m, lim.lookup j = some m →
      ∀ i ∈ unassignedIndices df, m < (rowAt df i).age → v (VarId.assign i j) = 0) := by
  constructor
  · intro lim hlim j hj m hm i hi hage
    have h1 : (⟨⟨((unassignedIndices df).filter
        (fun i2 => decide ((rowAt df i2).age < m))).map
          (fun i2 => ((1 : Rat), VarId.assign i2 j)), 0⟩, .eq, ⟨[], 0⟩⟩ : LinCon)
        ∈ minAgeCons df caps minL := by
      rw [hlim]
      unfold minAgeCons
      refine List.mem_filterMap.mpr ⟨j, hj, ?_⟩
      rw [hm]
      rfl
    have hh := hf.2 _ (minAge_sub_allCons df caps gbw abw minL maxL _ h1)
    unfold LinCon.holds at hh
    simp only at hh
    rw [eval_map_one] at hh
    have hsum : (((unassignedIndices df).filter
        (fun i2 => decide ((rowAt df i2).age < m))).map
          (fun i2 => v (VarId.assign i2 j))).sum = 0 := by
      simpa [LinExp.eval] using hh
    have hz := sum_zero_of_nonneg (f := fun i2 => v (VarId.assign i2 j)) ?_ hsum
    · exact hz i (List.mem_filter.mpr ⟨hi, by simpa using hage⟩)
    · intro a ha
      have ha2 := (List.mem_filter.mp ha).1
      rcases hf.1.1 a ha2 j hj with h | h <;> simp [h]
  · intro lim hlim j hj m hm i hi hage
    have h1 : (⟨⟨((unassignedIndices df).filter
        (fun i2 => decide (m < (rowAt df i2).age))).map
          (fun i2 => ((1 : Rat), VarId.assign i2 j)), 0⟩, .eq, ⟨[], 0⟩⟩ : LinCon)
        ∈ maxAgeCons df caps maxL := by
      rw [hlim]
      unfold maxAgeCons
      refine List.mem_filterMap.mpr ⟨j, hj, ?_⟩
      rw [hm]
      rfl
    have hh := hf.2 _ (maxAge_sub_allCons df caps gbw abw minL maxL _ h1)
    unfold LinCon.holds at hh
    simp only at hh
    rw [eval_map_one] at hh
    have hsum : (((unassignedIndices df).filter
        (fun i2 => decide (m < (rowAt df i2).age))).map
          (fun i2 => v (VarId.assign i2 j))).sum = 0 := by
      simpa [LinExp.eval] using hh
    have hz := sum_zero_of_nonneg (f := fun i2 => v (VarId.assign i2 j)) ?_ hsum
    · exact hz i (List.mem_filter.mpr ⟨hi, by simpa using hage⟩)
    · intro a ha
      have ha2 := (List.mem_filter.mp ha).1
      rcases hf.1.1 a ha2 j hj with h | h <;> simp [h]

theorem points_sum_helper (names : List String) (v : VarId → Rat) (pw : Rat)
    (pts : Nat → Rat) (u : List Nat)
    (h1 : ∀ i ∈ u, ((names.map (fun j => v (VarId.assign i j))).sum = 1)) :
    (u.map (fun i => ((names.map (fun j => pw * pts i * v (VarId.assign i j))).sum))).sum
      = pw * (u.map pts).sum := by
  induction u with
  | nil => simp
  | cons b t ih =>
    simp only [List.map_cons, List.sum_cons]
    rw [List.sum_map_mul_left names (fun j => v (VarId.assign b j)) (pw * pts b),
      h1 b (by simp), mul_one, ih (fun i hi => h1 i (by simp [hi]))]
    ring

/-- C6: under the single-assignment constraints the points term of the
objective evaluates to the constant PointsWeight times the total points
of the free persons, whatever the assignment, so it cannot influence
which group anybody lands in. -/
theorem points_term_constant
    (df : DataFrame) (caps : List (String × Int)) (pw : Rat) (v : VarId → Rat)
    (h1 : ∀ i ∈ unassignedIndices df,
      ((groupNames caps).map (fun j => v (VarId.assign i j))).sum = 1) :
    (LinExp.smul pw (pointsExp df caps)).eval v
      = pw * ((unassignedIndices df).map (fun i => (rowAt df i).gesamtpunkte)).sum := by
  by_cases hpw : pw = 0
  · simp [hpw, LinExp.smul, LinExp.eval]
  · unfold LinExp.smul pointsExp
    rw [if_neg hpw]
    unfold LinExp.eval
    simp only [List.map_map, Function.comp_def]
    rw [sum_map_flatMap]
    simp only [List.map_map, Function.comp_def]
    have hp := points_sum_helper (groupNames caps) v pw
      (fun i => (rowAt df i).gesamtpunkte) (unassignedIndices df) h1
    simpa using hp

/-! Machinery for C2: rosters that differ only in the Geschlecht field,
and the variables occurring in the built model. -/

theorem gruppe_withGeschlecht (r : Row) (s : String) :
    ({ r with geschlecht := s } : Row).gruppe = r.gruppe := rfl

theorem age_withGeschlecht (r : Row) (s : String) :
    ({ r with geschlecht := s } : Row).age = r.age := rfl

theorem punkte_withGeschlecht (r : Row) (s : String) :
    ({ r with geschlecht := s } : Row).gesamtpunkte = r.gesamtpunkte := rfl

/-- Rows with the Geschlecht fields replaced positionally by the list
`ss` (rows beyond `ss` stay as they are); every other field untouched. -/
def setGenders : List Row → List String → List Row
  | [], _ => []
  | rs, [] => rs
  | r :: rs, s :: ss => { r with geschlecht := s } :: setGenders rs ss

/-- The roster with the Geschlecht column rewritten to `ss`: the general
form of permuting or otherwise changing genders. -/
def withGenders (df : DataFrame) (ss : List String) : DataFrame :=
  ⟨df.cols, setGenders df.rows ss⟩

theorem unassignedFrom_setGenders (rs : List Row) :
    ∀ n ss, unassignedFrom n (setGenders rs ss) = unassignedFrom n rs := by
  induction rs with
  | nil => intro n ss; cases ss <;> rfl
  | cons r t ih =>
    intro n ss
    cases ss with
    | nil => rfl
    | cons s st =>
      show unassignedFrom n ({ r with geschlecht := s } :: setGenders t st)
        = unassignedFrom n (r :: t)
      unfold unassignedFrom
      rw [ih (n + 1) st]

theorem unassignedIndices_withGenders (df : DataFrame) (ss : List String) :
    unassignedIndices (withGenders df ss) = unassignedIndices df :=
  unassignedFrom_setGenders df.rows 0 ss

theorem map_age_setGenders (rs : List Row) :
    ∀ ss, (setGenders rs ss).map (·.age) = rs.map (·.age) := by
  induction rs with
  | nil => intro ss; cases ss <;> rfl
  | cons r t ih =>
    intro ss
    cases ss with
    | nil => rfl
    | cons s st => simp [setGenders, ih st]

theorem ageClasses_withGenders (df : DataFrame) (ss : List String) :
    ageClasses (withGenders df ss) = ageClasses df := by
  unfold ageClasses
  rw [show (withGenders df ss).rows = setGenders df.rows ss from rfl,
    map_age_setGenders df.rows ss]

theorem getD_setGenders {α : Type} (f : Row → α)
    (hf : ∀ r s, f { r with geschlecht := s } = f r) (rs : List Row) :
    ∀ ss i, f ((setGenders rs ss).getD i dfltRow) = f (rs.getD i dfltRow) := by
  induction rs with
  | nil => intro ss i; cases ss <;> rfl
  | cons r t ih =>
    intro ss i
    cases ss with
    | nil => rfl
    | cons s st =>
      cases i with
      | zero => simpa [setGenders] using hf r s
      | succ i2 => simpa [setGenders] using ih st i2

theorem rowAt_age_withGenders (df : DataFrame) (ss : List String) (i : Nat) :
    (rowAt (withGenders df ss) i).age = (rowAt df i).age :=
  getD_setGenders (·.age) (fun _ _ => rfl) df.rows ss i

theorem rowAt_punkte_withGenders (df : DataFrame) (ss : List String) (i : Nat) :
    (rowAt (withGenders df ss) i).gesamtpunkte = (rowAt df i).gesamtpunkte :=
  getD_setGenders (·.gesamtpunkte) (fun _ _ => rfl) df.rows ss i

theorem fixedCount_withGenders (df : DataFrame) (ss : List String) (j : String) :
    fixedCount (withGenders df ss) j = fixedCount df j := by
  unfold fixedCount
  show ((setGenders df.rows ss).filter _).length = _
  induction df.rows generalizing ss with
  | nil => cases ss <;> rfl
  | cons r t ih =>
    cases ss with
    | nil => rfl
    | cons s st =>
      show ((({ r with geschlecht := s } : Row) :: setGenders t st).filter _).length = _
      simp only [List.filter_cons, gruppe_withGeschlecht]
      split <;> simp [ih st]

theorem genderCons_zero (df : DataFrame) (caps : List (String × Int)) :
    genderCons df caps 0 = [] := by
  simp [genderCons]

theorem ageCons_zero (df : DataFrame) (caps : List (String × Int)) :
    ageCons df caps 0 = [] := by
  simp [ageCons]

theorem singleAssignCons_withGenders (df : DataFrame) (ss : List String)
    (caps : List (String × Int)) :
    singleAssignCons (withGenders df ss) caps = singleAssignCons df caps := by
  unfold singleAssignCons
  rw [unassignedIndices_withGenders]

theorem capacityCons_withGenders (df : DataFrame) (ss : List String)
    (caps : List (String × Int)) :
    capacityCons (withGenders df ss) caps = capacityCons df caps := by
  unfold capacityCons
  rw [unassignedIndices_withGenders]
  simp only [fixedCount_withGenders]

theorem ageIdx_withGenders (df : DataFrame) (ss : List String) (k : Int) :
    ageIdx (withGenders df ss) k = ageIdx df k := by
  unfold ageIdx
  rw [unassignedIndices_withGenders]
  simp only [rowAt_age_withGenders]

theorem ageCons_withGenders (df : DataFrame) (ss : List String)
    (caps : List (String × Int)) (abw : Rat) :
    ageCons (withGenders df ss) caps abw = ageCons df caps abw := by
  unfold ageCons ageConsFor ageMinusTotal totalMinusAge
  rw [unassignedIndices_withGenders, ageClasses_withGenders]
  simp only [ageIdx_withGenders]

theorem minAgeCons_withGenders (df : DataFrame) (ss : List String)
    (caps : List (String × Int)) (minL : Option (List (String × Int))) :
    minAgeCons (withGenders df ss) caps minL = minAgeCons df caps minL := by
  unfold minAgeCons
  rw [unassignedIndices_withGenders]
  simp only [rowAt_age_withGenders]

theorem maxAgeCons_withGenders (df : DataFrame) (ss : List String)
    (caps : List (String × Int)) (maxL : Option (List (String × Int))) :
    maxAgeCons (withGenders df ss) caps maxL = maxAgeCons df caps maxL := by
  unfold maxAgeCons
  rw [unassignedIndices_withGenders]
  simp only [rowAt_age_withGenders]

theorem allCons_withGenders (df : DataFrame) (ss : List String)
    (caps : List (String × Int)) (abw : Rat)
    (minL maxL : Option (List (String × Int))) :
    allCons (withGenders df ss) caps 0 abw minL maxL
      = allCons df caps 0 abw minL maxL := by
  unfold allCons
  rw [singleAssignCons_withGenders, capacityCons_withGenders, genderCons_zero,
    genderCons_zero, ageCons_withGenders, minAgeCons_withGenders,
    maxAgeCons_withGenders]

theorem pointsExp_withGenders (df : DataFrame) (ss : List String)
    (caps : List (String × Int)) :
    pointsExp (withGenders df ss) caps = pointsExp df caps := by
  unfold pointsExp
  rw [unassignedIndices_withGenders]
  simp only [rowAt_punkte_withGenders]

theorem objective_withGenders (df : DataFrame) (ss : List String)
    (caps : List (String × Int)) (pw abw gp ap : Rat) :
    objective (withGenders df ss) caps pw 0 abw gp ap
      = objective df caps pw 0 abw gp ap := by
  unfold objective genderGapExp
  rw [pointsExp_withGenders, ageClasses_withGenders]

theorem buildModel_withGenders (df : DataFrame) (ss : List String)
    (caps : List (String × Int)) (pw abw gp ap : Rat)
    (minL maxL : Option (List (String × Int))) :
    buildModel (withGenders df ss) caps pw 0 abw minL maxL gp ap
      = buildModel df caps pw 0 abw minL maxL gp ap := by
  unfold buildModel
  rw [objective_withGenders, allCons_withGenders]

/-! Which variables occur where in the built model. -/

theorem vars_smul (c : Rat) (e : LinExp) (x : VarId)
    (hx : x ∈ (LinExp.smul c e).terms.map Prod.snd) :
    x ∈ e.terms.map Prod.snd := by
  unfold LinExp.smul at hx
  split at hx
  · simp at hx
  · obtain ⟨t, ht, rfl⟩ := List.mem_map.mp hx
    obtain ⟨u, hu, rfl⟩ := List.mem_map.mp ht
    exact List.mem_map.mpr ⟨u, hu, rfl⟩

theorem vars_negTerms (e : LinExp) (x : VarId)
    (hx : x ∈ (LinExp.negTerms e).map Prod.snd) :
    x ∈ e.terms.map Prod.snd := by
  unfold LinExp.negTerms at hx
  obtain ⟨t, ht, rfl⟩ := List.mem_map.mp hx
  obtain ⟨u, hu, rfl⟩ := List.mem_map.mp ht
  exact List.mem_map.mpr ⟨u, hu, rfl⟩

theorem vars_pointsExp (df : DataFrame) (caps : List (String × Int)) (x : VarId)
    (hx : x ∈ (pointsExp df caps).terms.map Prod.snd) :
    ∃ i j, x = VarId.assign i j := by
  obtain ⟨t, ht, rfl⟩ := List.mem_map.mp hx
  obtain ⟨i, hi, ht2⟩ := List.mem_flatMap.mp ht
  obtain ⟨j, hj, rfl⟩ := List.mem_map.mp ht2
  exact ⟨i, j, rfl⟩

theorem vars_genderGapExp (df : DataFrame) (caps : List (String × Int)) (x : VarId)
    (hx : x ∈ (genderGapExp df caps).terms.map Prod.snd) :
    ∃ k j, x = VarId.gGap k j := by
  obtain ⟨t, ht, rfl⟩ := List.mem_map.mp hx
  obtain ⟨k, hk, ht2⟩ := List.mem_flatMap.mp ht
  obtain ⟨j, hj, rfl⟩ := List.mem_map.mp ht2
  exact ⟨k, j, rfl⟩

theorem vars_ageGapExp (caps : List (String × Int)) (x : VarId)
    (hx : x ∈ (ageGapExp caps).terms.map Prod.snd) :
    ∃ j, x = VarId.aGap j := by
  obtain ⟨t, ht, rfl⟩ := List.mem_map.mp hx
  obtain ⟨j, hj, rfl⟩ := List.mem_map.mp ht
  exact ⟨j, rfl⟩

theorem vars_objective_gbw0 (df : DataFrame) (caps : List (String × Int))
    (pw abw gp ap : Rat) (x : VarId)
    (hx : x ∈ (objective df caps pw 0 abw gp ap).vars) :
    (∃ i j, x = VarId.assign i j) ∨ (∃ j, x = VarId.aGap j) := by
  unfold objective LinExp.vars at hx
  rw [List.map_append, List.map_append] at hx
  rcases List.mem_append.mp hx with h | h
  · rcases List.mem_append.mp h with h2 | h2
    · exact Or.inl (vars_pointsExp df caps x (vars_smul pw _ x h2))
    · rw [show (0 : Rat) * gp = 0 from zero_mul gp] at h2
      simp [LinExp.smul, LinExp.negTerms] at h2
  · exact Or.inr (vars_ageGapExp caps x (vars_smul _ _ x (vars_negTerms _ x h)))

theorem vars_objective_abw0 (df : DataFrame) (caps : List (String × Int))
    (pw gbw gp ap : Rat) (x : VarId)
    (hx : x ∈ (objective df caps pw gbw 0 gp ap).vars) :
    (∃ i j, x = VarId.assign i j) ∨ (∃ k j, x = VarId.gGap k j) := by
  unfold objective LinExp.vars at hx
  rw [List.map_append, List.map_append] at hx
  rcases List.mem_append.mp hx with h | h
  · rcases List.mem_append.mp h with h2 | h2
    · exact Or.inl (vars_pointsExp df caps x (vars_smul pw _ x h2))
    · exact Or.inr (vars_genderGapExp df caps x (vars_smul _ _ x (vars_negTerms _ x h2)))
  · rw [show (0 : Rat) * ap = 0 from zero_mul ap] at h
    simp [LinExp.smul, LinExp.negTerms] at h

theorem vars_singleAssign (df : DataFrame) (caps : List (String × Int))
    (c : LinCon) (x : VarId) (hc : c ∈ singleAssignCons df caps) (hx : x ∈ c.vars) :
    ∃ i j, x = VarId.assign i j := by
  unfold singleAssignCons at hc
  obtain ⟨i, hi, rfl⟩ := List.mem_map.mp hc
  unfold LinCon.vars LinExp.vars at hx
  rcases List.mem_append.mp hx with h | h
  · obtain ⟨t, ht, rfl⟩ := List.mem_map.mp h
    obtain ⟨j, hj, rfl⟩ := List.mem_map.mp ht
    exact ⟨i, j, rfl⟩
  · simp at h

theorem vars_capacity (df : DataFrame) (caps : List (String × Int))
    (c : LinCon) (x : VarId) (hc : c ∈ capacityCons df caps) (hx : x ∈ c.vars) :
    ∃ i j, x = VarId.assign i j := by
  unfold capacityCons at hc
  obtain ⟨j, hj, rfl⟩ := List.mem_map.mp hc
  unfold LinCon.vars LinExp.vars at hx
  rcases List.mem_append.mp hx with h | h
  · obtain ⟨t, ht, rfl⟩ := List.mem_map.mp h
    obtain ⟨i, hi, rfl⟩ := List.mem_map.mp ht
    exact ⟨i, j, rfl⟩
  · simp at h

theorem vars_ageConstraints (df : DataFrame) (caps : List (String × Int))
    (abw : Rat) (c : LinCon) (x : VarId)
    (hc : c ∈ ageCons df caps abw) (hx : x ∈ c.vars) :
    (∃ i j, x = VarId.assign i j) ∨ (∃ j, x = VarId.aGap j) ∨ (∃ j, x = VarId.tv j) := by
  unfold ageCons at hc
  split at hc
  · obtain ⟨j, hj, hc2⟩ := List.mem_flatMap.mp hc
    obtain ⟨k, hk, hc3⟩ := List.mem_flatMap.mp hc2
    unfold ageConsFor at hc3
    simp only [List.mem_cons, List.not_mem_nil, or_false] at hc3
    rcases hc3 with rfl | rfl | rfl
    · unfold LinCon.vars LinExp.vars ageMinusTotal at hx
      rcases List.mem_append.mp hx with h | h
      · simp only [List.map_cons, List.map_nil, List.mem_singleton] at h
        exact Or.inr (Or.inl ⟨j, h⟩)
      · rw [List.map_append] at h
        rcases List.mem_append.mp h with h2 | h2
        · obtain ⟨t, ht, rfl⟩ := List.mem_map.mp h2
          obtain ⟨i, hi, rfl⟩ := List.mem_map.mp ht
          exact Or.inl ⟨i, j, rfl⟩
        · obtain ⟨t, ht, rfl⟩ := List.mem_map.mp h2
          obtain ⟨i, hi, rfl⟩ := List.mem_map.mp ht
          exact Or.inl ⟨i, j, rfl⟩
    · unfold LinCon.vars LinExp.vars totalMinusAge at hx
      rcases List.mem_append.mp hx with h | h
      · simp only [List.map_cons, List.map_nil, List.mem_singleton] at h
        exact Or.inr (Or.inl ⟨j, h⟩)
      · rw [List.map_append] at h
        rcases List.mem_append.mp h with h2 | h2
        · obtain ⟨t, ht, rfl⟩ := List.mem_map.mp h2
          obtain ⟨i, hi, rfl⟩ := List.mem_map.mp ht
          exact Or.inl ⟨i, j, rfl⟩
        · obtain ⟨t, ht, rfl⟩ := List.mem_map.mp h2
          obtain ⟨i, hi, rfl⟩ := List.mem_map.mp ht
          exact Or.inl ⟨i, j, rfl⟩
    · unfold LinCon.vars LinExp.vars at hx
      rcases List.mem_append.mp hx with h | h
      · simp only [List.map_cons, List.map_nil, List.mem_singleton] at h
        exact Or.inr (Or.inr ⟨j, h⟩)
      · simp only [List.map_cons, List.map_nil, List.mem_singleton] at h
        exact Or.inr (Or.inl ⟨j, h⟩)
  · simp at hc

theorem vars_genderConstraints (df : DataFrame) (caps : List (String × Int))
    (gbw : Rat) (c : LinCon) (x : VarId)
    (hc : c ∈ genderCons df caps gbw) (hx : x ∈ c.vars) :
    (∃ i j, x = VarId.assign i j) ∨ (∃ k j, x = VarId.gGap k j)
      ∨ (∃ k j, x = VarId.sv k j) := by
  unfold genderCons at hc
  split at hc
  · obtain ⟨j, hj, hc2⟩ := List.mem_flatMap.mp hc
    obtain ⟨k, hk, hc3⟩ := List.mem_flatMap.mp hc2
    unfold genderConsFor at hc3
    simp only [List.mem_cons, List.not_mem_nil, or_false] at hc3
    rcases hc3 with rfl | rfl | rfl
    · unfold LinCon.vars LinExp.vars maleMinusFemale at hx
      rcases List.mem_append.mp hx with h | h
      · simp only [List.map_cons, List.map_nil, List.mem_singleton] at h
        exact Or.inr (Or.inl ⟨k, j, h⟩)
      · rw [List.map_append] at h
        rcases List.mem_append.mp h with h2 | h2
        · obtain ⟨t, ht, rfl⟩ := List.mem_map.mp h2
          obtain ⟨i, hi, rfl⟩ := List.mem_map.mp ht
          exact Or.inl ⟨i, j, rfl⟩
        · obtain ⟨t, ht, rfl⟩ := List.mem_map.mp h2
          obtain ⟨i, hi, rfl⟩ := List.mem_map.mp ht
          exact Or.inl ⟨i, j, rfl⟩
    · unfold LinCon.vars LinExp.vars femaleMinusMale at hx
      rcases List.mem_append.mp hx with h | h
      · simp only [List.map_cons, List.map_nil, List.mem_singleton] at h
        exact Or.inr (Or.inl ⟨k, j, h⟩)
      · rw [List.map_append] at h
        rcases List.mem_append.mp h with h2 | h2
        · obtain ⟨t, ht, rfl⟩ := List.mem_map.mp h2
          obtain ⟨i, hi, rfl⟩ := List.mem_map.mp ht
          exact Or.inl ⟨i, j, rfl⟩
        · obtain ⟨t, ht, rfl⟩ := List.mem_map.mp h2
          obtain ⟨i, hi, rfl⟩ := List.mem_map.mp ht
          exact Or.inl ⟨i, j, rfl⟩
    · unfold LinCon.vars LinExp.vars at hx
      rcases List.mem_append.mp hx with h | h
      · simp only [List.map_cons, List.map_nil, List.mem_singleton] at h
        exact Or.inr (Or.inr ⟨k, j, h⟩)
      · simp only [List.map_cons, List.map_nil, List.mem_singleton] at h
        exact Or.inr (Or.inl ⟨k, j, h⟩)
  · simp at hc

theorem vars_minAge (df : DataFrame) (caps : List (String × Int))
    (minL : Option (List (String × Int))) (c : LinCon) (x : VarId)
    (hc : c ∈ minAgeCons df caps minL) (hx : x ∈ c.vars) :
    ∃ i j, x = VarId.assign i j := by
  unfold minAgeCons at hc
  split at hc
  · simp at hc
  · obtain ⟨j, hj, hc2⟩ := List.mem_filterMap.mp hc
    obtain ⟨m, hm, rfl⟩ := Option.map_eq_some'.mp hc2
    unfold LinCon.vars LinExp.vars at hx
    rcases List.mem_append.mp hx with h | h
    · obtain ⟨t, ht, rfl⟩ := List.mem_map.mp h
      obtain ⟨i, hi, rfl⟩ := List.mem_map.mp ht
      exact ⟨i, j, rfl⟩
    · simp at h

theorem vars_maxAge (df : DataFrame) (caps : List (String × Int))
    (maxL : Option (List (String × Int))) (c : LinCon) (x : VarId)
    (hc : c ∈ maxAgeCons df caps maxL) (hx : x ∈ c.vars) :
    ∃ i j, x = VarId.assign i j := by
  unfold maxAgeCons at hc
  split at hc
  · simp at hc
  · obtain ⟨j, hj, hc2⟩ := List.mem_filterMap.mp hc
    obtain ⟨m, hm, rfl⟩ := Option.map_eq_some'.mp hc2
    unfold LinCon.vars LinExp.vars at hx
    rcases List.mem_append.mp hx with h | h
    · obtain ⟨t, ht, rfl⟩ := List.mem_map.mp h
      obtain ⟨i, hi, rfl⟩ := List.mem_map.mp ht
      exact ⟨i, j, rfl⟩
    · simp at h

theorem buildModel_vars_gbw0 (df : DataFrame) (caps : List (String × Int))
    (pw abw gp ap : Rat) (minL maxL : Option (List (String × Int))) (x : VarId)
    (hx : x ∈ (buildModel df caps pw 0 abw minL maxL gp ap).vars) :
    (∃ i j, x = VarId.assign i j) ∨ (∃ j, x = VarId.aGap j) ∨ (∃ j, x = VarId.tv j) := by
  unfold buildModel Model.vars at hx
  rcases List.mem_append.mp hx with h | h
  · rcases vars_objective_gbw0 df caps pw abw gp ap x h with h2 | h2
    · exact Or.inl h2
    · exact Or.inr (Or.inl h2)
  · obtain ⟨c, hc, hcx⟩ := List.mem_flatMap.mp h
    unfold allCons at hc
    simp only [List.mem_append] at hc
    rcases hc with ((((hc | hc) | hc) | hc) | hc) | hc
    · exact Or.inl (vars_singleAssign df caps c x hc hcx)
    · exact Or.inl (vars_capacity df caps c x hc hcx)
    · rw [genderCons_zero] at hc
      simp at hc
    · exact vars_ageConstraints df caps abw c x hc hcx
    · exact Or.inl (vars_minAge df caps minL c x hc hcx)
    · exact Or.inl (vars_maxAge df caps maxL c x hc hcx)

theorem buildModel_vars_abw0 (df : DataFrame) (caps : List (String × Int))
    (pw gbw gp ap : Rat) (minL maxL : Option (List (String × Int))) (x : VarId)
    (hx : x ∈ (buildModel df caps pw gbw 0 minL maxL gp ap).vars) :
    (∃ i j, x = VarId.assign i j) ∨ (∃ k j, x = VarId.gGap k j)
      ∨ (∃ k j, x = VarId.sv k j) := by
  unfold buildModel Model.vars at hx
  rcases List.mem_append.mp hx with h | h
  · rcases vars_objective_abw0 df caps pw gbw gp ap x h with h2 | h2
    · exact Or.inl h2
    · exact Or.inr (Or.inl h2)
  · obtain ⟨c, hc, hcx⟩ := List.mem_flatMap.mp h
    unfold allCons at hc
    simp only [List.mem_append] at hc
    rcases hc with ((((hc | hc) | hc) | hc) | hc) | hc
    · exact Or.inl (vars_singleAssign df caps c x hc hcx)
    · exact Or.inl (vars_capacity df caps c x hc hcx)
    · exact vars_genderConstraints df caps gbw c x hc hcx
    · rw [ageCons_zero] at hc
      simp at hc
    · exact Or.inl (vars_minAge df caps minL c x hc hcx)
    · exact Or.inl (vars_maxAge df caps maxL c x hc hcx)

/-- C2: weight gating is structural. A zero gender-balance weight
generates no gender constraints and leaves neither the abs_diff_gender
nor the s helper variables anywhere in the built model (PuLP drops the
zero-scaled objective term entirely), and the whole built model is
unchanged when the Geschlecht column is rewritten arbitrarily — in
particular when genders of free persons are permuted — so the chosen
assignment cannot depend on genders. Symmetrically, a zero age-balance
weight generates no age-balance constraints and leaves neither
abs_diff_age nor t in the model. -/
theorem zero_weight_structural (df : DataFrame) (caps : List (String × Int))
    (pw gbw abw gp ap : Rat) (minL maxL : Option (List (String × Int))) :
    (gbw = 0 →
      genderCons df caps gbw = []
      ∧ (∀ k j, VarId.gGap k j ∉ (buildModel df caps pw gbw abw minL maxL gp ap).vars)
      ∧ (∀ k j, VarId.sv k j ∉ (buildModel df caps pw gbw abw minL maxL gp ap).vars)
      ∧ ∀ ss, buildModel (withGenders df ss) caps pw gbw abw minL maxL gp ap
          = buildModel df caps pw gbw abw minL maxL gp ap)
    ∧ (abw = 0 →
      ageCons df caps abw = []
      ∧ (∀ j, VarId.aGap j ∉ (buildModel df caps pw gbw abw minL maxL gp ap).vars)
      ∧ (∀ j, VarId.tv j ∉ (buildModel df caps pw gbw abw minL maxL gp ap).vars)) := by
  constructor
  · rintro rfl
    refine ⟨genderCons_zero df caps, ?_, ?_, ?_⟩
    · intro k j hmem
      rcases buildModel_vars_gbw0 df caps pw abw gp ap minL maxL _ hmem with
        ⟨i, j2, h⟩ | ⟨j2, h⟩ | ⟨j2, h⟩ <;> simp at h
    · intro k j hmem
      rcases buildModel_vars_gbw0 df caps pw abw gp ap minL maxL _ hmem with
        ⟨i, j2, h⟩ | ⟨j2, h⟩ | ⟨j2, h⟩ <;> simp at h
    · intro ss
      exact buildModel_withGenders df ss caps pw abw gp ap minL maxL
  · rintro rfl
    refine ⟨ageCons_zero df caps, ?_, ?_⟩
    · intro j hmem
      rcases buildModel_vars_abw0 df caps pw gbw gp ap minL maxL _ hmem with
        ⟨i, j2, h⟩ | ⟨k2, j2, h⟩ | ⟨k2, j2, h⟩ <;> simp at h
    · intro j hmem
      rcases buildModel_vars_abw0 df caps pw gbw gp ap minL maxL _ hmem with
        ⟨i, j2, h⟩ | ⟨k2, j2, h⟩ | ⟨k2, j2, h⟩ <;> simp at h

/-! Concrete scenarios. -/

/-- The infeasibility scenario of spec §8: three free persons of ages
4, 5 and 6 and two groups of capacity 1 each. -/
def df1 : DataFrame :=
  ⟨["Gruppe", "Age", "Geschlecht", "Gesamtpunkte"],
   [⟨none, 4, "männlich", 0, none, none⟩,
    ⟨none, 5, "weiblich", 0, none, none⟩,
    ⟨none, 6, "männlich", 0, none, none⟩]⟩

/-- Two groups of capacity 1 for the infeasibility scenario. -/
def caps1 : List (String × Int) := [("A", 1), ("B", 1)]

/-- One free person of age -3 and nothing else. -/
def df7 : DataFrame :=
  ⟨["Gruppe", "Age", "Geschlecht", "Gesamtpunkte"],
   [⟨none, -3, "männlich", 0, none, none⟩]⟩

/-- A single group with spare capacity. -/
def caps7 : List (String × Int) := [("G1", 2)]

/-- Valuation assigning the single person of df7 to group G1. -/
def v7 (x : VarId) : Rat := if x = VarId.assign 0 "G1" then 1 else 0

/-- A two-person roster with a feasible assignment, used to witness the
invariant theorems. -/
def df3 : DataFrame :=
  ⟨["Gruppe", "Age", "Geschlecht", "Gesamtpunkte"],
   [⟨none, 4, "männlich", 2, none, none⟩,
    ⟨none, 5, "weiblich", 3, none, none⟩]⟩

/-- Two groups of capacity 1 for the feasible scenario. -/
def caps3 : List (String × Int) := [("A", 1), ("B", 1)]

/-- Valuation assigning person 0 to A and person 1 to B. -/
def v3 (x : VarId) : Rat :=
  if x = VarId.assign 0 "A" ∨ x = VarId.assign 1 "B" then 1 else 0

/-- A minimum-age limit of 5 for group B alone. -/
def lim3 : List (String × Int) := [("B", 5)]

/-- C1 (code bug): in the total-capacity-exceeded scenario — 3 free
persons, two groups of capacity 1 — the hard constraints are
unsatisfiable, so no feasible valuation exists; yet the operation has
no infeasibility outcome at all: for every solver read-back it returns
Except.ok with a materialized roster, because the code never inspects
the status of prob.solve() and unconditionally writes the variable
values back. The InfeasibleError the spec requires is never reported. -/
theorem infeasible_scenario_unreported :
    (¬ ∃ v : VarId → Rat, feasible df1 caps1 0 0 none none v)
    ∧ ∀ (sol : Nat → String → Option Rat) (now : String),
        optimize_group_assignment df1 caps1 1 0 0 0 none none 1 1 sol now
          = Except.ok (materialize df1 (groupNames caps1) (unassignedIndices df1) now sol) := by
  constructor
  · rintro ⟨v, hb, hc⟩
    have e0 := hc ⟨⟨[(1, VarId.assign 0 "A"), (1, VarId.assign 0 "B")], 0⟩, .eq, ⟨[], 1⟩⟩
      (by decide)
    have e1 := hc ⟨⟨[(1, VarId.assign 1 "A"), (1, VarId.assign 1 "B")], 0⟩, .eq, ⟨[], 1⟩⟩
      (by decide)
    have e2 := hc ⟨⟨[(1, VarId.assign 2 "A"), (1, VarId.assign 2 "B")], 0⟩, .eq, ⟨[], 1⟩⟩
      (by decide)
    have kA := hc ⟨⟨[(1, VarId.assign 0 "A"), (1, VarId.assign 1 "A"),
        (1, VarId.assign 2 "A")], 0⟩, .le, ⟨[], 1⟩⟩ (by decide)
    have kB := hc ⟨⟨[(1, VarId.assign 0 "B"), (1, VarId.assign 1 "B"),
        (1, VarId.assign 2 "B")], 0⟩, .le, ⟨[], 1⟩⟩ (by decide)
    norm_num [LinCon.holds, LinExp.eval] at e0 e1 e2 kA kB
    linarith
  · intro sol now
    rfl

/-- C7: with both age-limit dicts left at their default None — which is
what the UI call site display_call always does — the built model
contains no age-eligibility constraints whatsoever, and a free person
of any age, here -3, can feasibly be placed in a group with spare
capacity. -/
theorem none_age_limits_unconstrained :
    (∀ (df : DataFrame) (caps : List (String × Int)),
      minAgeCons df caps none = [] ∧ maxAgeCons df caps none = [])
    ∧ feasible df7 caps7 0 0 none none v7
    ∧ v7 (VarId.assign 0 "G1") = 1
    ∧ (rowAt df7 0).age = -3
    ∧ (fixedCount df7 "G1" : Int) + 1 ≤ capOf caps7 "G1"
    ∧ ∀ df caps pw adw gdw acw sol now,
        display_call df caps pw adw gdw acw sol now
          = optimize_group_assignment df caps pw adw gdw acw none none 1 1 sol now := by
  refine ⟨fun df caps => ⟨rfl, rfl⟩, ?_, by norm_num [v7], by decide, by decide,
    fun df caps pw adw gdw acw sol now => rfl⟩
  constructor
  · refine ⟨?_, ?_, ?_⟩ <;>
      simp [unassignedIndices, unassignedFrom, df7, caps7, groupNames, ageClasses,
        pdUnique, pdUniqueAux, rowAt, dfltRow, v7]
  · intro c hc
    simp only [allCons, genderCons, ageCons, minAgeCons, maxAgeCons,
      singleAssignCons, capacityCons, unassignedIndices, unassignedFrom, df7, caps7,
      groupNames, fixedCount, capOf, rowAt, dfltRow, List.mem_append] at hc
    norm_num at hc
    rcases hc with rfl | rfl <;>
      simp [LinCon.holds, LinExp.eval, v7, fixedCount, df7, capOf, caps7,
        List.filter_cons, List.filter_nil]

/-! Frame lemmas for the result materializer (C8). -/

theorem mem_addCol_self (cols : List String) (c : String) : c ∈ addCol cols c := by
  unfold addCol
  split
  · assumption
  · simp

theorem mem_addCol_of_mem (cols : List String) (c a : String) (h : a ∈ cols) :
    a ∈ addCol cols c := by
  unfold addCol
  split
  · exact h
  · simp [h]

theorem addCol_of_mem (cols : List String) (c : String) (h : c ∈ cols) :
    addCol cols c = cols := by
  unfold addCol
  exact if_pos h

theorem auditAddCols_idem (cols : List String) :
    auditAddCols (auditAddCols cols) = auditAddCols cols := by
  unfold auditAddCols
  rw [addCol_of_mem _ "Geändert"
      (mem_addCol_of_mem _ _ _ (mem_addCol_self cols "Geändert")),
    addCol_of_mem _ "Geändert von" (mem_addCol_self _ "Geändert von")]

theorem modifyRow_getElem_other (rs : List Row) (n : Nat) (f : Row → Row) (i : Nat)
    (h : i ≠ n) : (modifyRow rs n f)[i]? = rs[i]? := by
  induction rs generalizing n i with
  | nil => cases n <;> rfl
  | cons r t ih =>
    cases n with
    | zero =>
      cases i with
      | zero => exact absurd rfl h
      | succ i2 => rfl
    | succ n2 =>
      cases i with
      | zero => simp [modifyRow]
      | succ i2 =>
        simp only [modifyRow, List.getElem?_cons_succ]
        exact ih n2 i2 (fun he => h (by rw [he]))

theorem assignStep_rows_other (now : String) (sol : Nat → String → Option Rat)
    (i : Nat) (df : DataFrame) (j : String) (i2 : Nat) (h : i2 ≠ i) :
    (assignStep now sol i df j).rows[i2]? = df.rows[i2]? := by
  unfold assignStep
  split
  · exact modifyRow_getElem_other df.rows i _ i2 h
  · rfl

theorem materializeRow_rows_other (gs : List String) (now : String)
    (sol : Nat → String → Option Rat) (df : DataFrame) (i i2 : Nat) (h : i2 ≠ i) :
    (materializeRow gs now sol df i).rows[i2]? = df.rows[i2]? := by
  induction gs generalizing df with
  | nil => rfl
  | cons g t ih =>
    show (materializeRow t now sol (assignStep now sol i df g) i).rows[i2]? = _
    rw [ih (assignStep now sol i df g)]
    exact assignStep_rows_other now sol i df g i2 h

theorem materialize_rows_other (un : List Nat) (gs : List String) (now : String)
    (sol : Nat → String → Option Rat) (df : DataFrame) (i2 : Nat) (h : i2 ∉ un) :
    (materialize df gs un now sol).rows[i2]? = df.rows[i2]? := by
  induction un generalizing df with
  | nil => rfl
  | cons a t ih =>
    show (materialize (materializeRow gs now sol df a) gs t now sol).rows[i2]? = _
    rw [ih (materializeRow gs now sol df a) (fun hm => h (List.mem_cons_of_mem a hm))]
    exact materializeRow_rows_other gs now sol df a i2
      (fun he => h (he ▸ List.mem_cons_self a t))

theorem assignStep_cols (now : String) (sol : Nat → String → Option Rat)
    (i : Nat) (df : DataFrame) (j : String) :
    (assignStep now sol i df j).cols = df.cols
    ∨ (assignStep now sol i df j).cols = auditAddCols df.cols := by
  unfold assignStep
  split
  · right; rfl
  · left; rfl

theorem cols_step_invariant (c0 : List String) (now : String)
    (sol : Nat → String → Option Rat) (i : Nat) (df : DataFrame) (j : String)
    (h : df.cols = c0 ∨ df.cols = auditAddCols c0) :
    (assignStep now sol i df j).cols = c0
    ∨ (assignStep now sol i df j).cols = auditAddCols c0 := by
  rcases assignStep_cols now sol i df j with h2 | h2 <;> rcases h with h3 | h3 <;>
    rw [h2, h3]
  · left; rfl
  · right; rfl
  · right; rfl
  · right; exact auditAddCols_idem c0

theorem materializeRow_cols (gs : List String) (c0 : List String) (now : String)
    (sol : Nat → String → Option Rat) (df : DataFrame) (i : Nat)
    (h : df.cols = c0 ∨ df.cols = auditAddCols c0) :
    (materializeRow gs now sol df i).cols = c0
    ∨ (materializeRow gs now sol df i).cols = auditAddCols c0 := by
  induction gs generalizing df with
  | nil => exact h
  | cons g t ih =>
    show (materializeRow t now sol (assignStep now sol i df g) i).cols = _ ∨ _
    exact ih (assignStep now sol i df g) (cols_step_invariant c0 now sol i df g h)

theorem materialize_cols (un : List Nat) (gs : List String) (c0 : List String)
    (now : String) (sol : Nat → String → Option Rat) (df : DataFrame)
    (h : df.cols = c0 ∨ df.cols = auditAddCols c0) :
    (materialize df gs un now sol).cols = c0
    ∨ (materialize df gs un now sol).cols = auditAddCols c0 := by
  induction un generalizing df with
  | nil => exact h
  | cons a t ih =>
    show (materialize (materializeRow gs now sol df a) gs t now sol).cols = _ ∨ _
    exact ih (materializeRow gs now sol df a) (materializeRow_cols gs c0 now sol df a h)

/-- Membership in the list of free indices characterizes a null group. -/
theorem mem_unassignedFrom (rs : List Row) :
    ∀ n i, i ∈ unassignedFrom n rs
      ↔ ∃ k, k < rs.length ∧ i = n + k ∧ (rs.getD k dfltRow).gruppe = none := by
  induction rs with
  | nil => intro n i; simp [unassignedFrom]
  | cons r t ih =>
    intro n i
    unfold unassignedFrom
    constructor
    · intro h
      split at h
      · rcases List.mem_cons.mp h with rfl | h2
        · exact ⟨0, by simp, by simp, by simpa using ‹r.gruppe = none›⟩
        · obtain ⟨k, hk, rfl, hg⟩ := (ih (n + 1) i).mp h2
          exact ⟨k + 1, by simpa using hk, by omega, by simpa using hg⟩
      · obtain ⟨k, hk, rfl, hg⟩ := (ih (n + 1) i).mp h
        exact ⟨k + 1, by simpa using hk, by omega, by simpa using hg⟩
    · rintro ⟨k, hk, rfl, hg⟩
      cases k with
      | zero =>
        simp only [List.getD_cons_zero] at hg
        rw [if_pos hg]
        simp
      | succ k2 =>
        have h2 : n + (k2 + 1) ∈ unassignedFrom (n + 1) t :=
          (ih (n + 1) (n + (k2 + 1))).mpr ⟨k2, by simpa using hk, by omega, by simpa using hg⟩
        split
        · exact List.mem_cons_of_mem _ h2
        · exact h2

/-- C8: the frame conditions of the materializer. Whenever the call
returns a roster, (a) if there were no free persons the result is
exactly the input roster, with no field changed and no audit column
added; (b) every fixed person (non-null Gruppe) passes through with
every field unchanged and no audit stamps; (c) the returned column set
is the original one, or the original one extended by exactly the two
audit columns. -/
theorem fixed_rows_pass_through
    (df : DataFrame) (caps : List (String × Int))
    (pw adw gbw abw : Rat) (minL maxL : Option (List (String × Int)))
    (gp ap : Rat) (sol : Nat → String → Option Rat) (now : String) (d : DataFrame)
    (hok : optimize_group_assignment df caps pw adw gbw abw minL maxL gp ap sol now
      = Except.ok d) :
    (unassignedIndices df = [] → d = df)
    ∧ (∀ (i : Nat) (r : Row), df.rows[i]? = some r → r.gruppe.isSome
        → d.rows[i]? = some r)
    ∧ (d.cols = df.cols ∨ d.cols = auditAddCols df.cols) := by
  unfold optimize_group_assignment at hok
  split at hok
  · have hd : d = materialize df (groupNames caps) (unassignedIndices df) now sol := by
      simpa using hok.symm
    subst hd
    refine ⟨?_, ?_, ?_⟩
    · intro h0
      rw [h0]
      rfl
    · intro i r hr hg
      have hi : i ∉ unassignedIndices df := by
        intro hmem
        obtain ⟨k, hk, rfl, hnone⟩ := (mem_unassignedFrom df.rows 0 _).mp hmem
        simp only [Nat.zero_add] at hr
        rw [List.getD_eq_getElem?_getD, hr] at hnone
        simp only [Option.getD_some] at hnone
        rw [hnone] at hg
        simp at hg
      rw [materialize_rows_other (unassignedIndices df) (groupNames caps) now sol df i hi]
      exact hr
    · exact materialize_cols (unassignedIndices df) (groupNames caps) df.cols now sol df
        (Or.inl rfl)
  · simp at hok

/-- C9: the operation fails with the validation error exactly when one
of the required columns Gruppe, Age, Geschlecht or Gesamtpunkte is
missing from the roster, and such a failure happens before anything
else: the result is the bare error value, no variable is declared and
no roster is produced; when all required columns are present the call
returns the materialized roster and never this error. -/
theorem validation_error_iff
    (df : DataFrame) (caps : List (String × Int))
    (pw adw gbw abw : Rat) (minL maxL : Option (List (String × Int)))
    (gp ap : Rat) (sol : Nat → String → Option Rat) (now : String) :
    ((∃ msg, optimize_group_assignment df caps pw adw gbw abw minL maxL gp ap sol now
        = Except.error msg)
      ↔ ¬ ∀ c ∈ requiredColumns, c ∈ df.cols)
    ∧ ((∀ c ∈ requiredColumns, c ∈ df.cols) →
      optimize_group_assignment df caps pw adw gbw abw minL maxL gp ap sol now
        = Except.ok (materialize df (groupNames caps) (unassignedIndices df) now sol)) := by
  unfold optimize_group_assignment
  by_cases h : ∀ c ∈ requiredColumns, c ∈ df.cols
  · have hb : (requiredColumns.all fun c => df.cols.contains c) = true := by
      rw [List.all_eq_true]
      intro c hc
      simpa using h c hc
    rw [if_pos hb]
    constructor
    · exact iff_of_false (by simp) (not_not_intro h)
    · intro _
      rfl
  · have hb : ¬ (requiredColumns.all fun c => df.cols.contains c) = true := by
      rw [List.all_eq_true]
      intro hall
      exact h (fun c hc => by simpa using hall c hc)
    rw [if_neg hb]
    constructor
    · exact iff_of_true ⟨_, rfl⟩ h
    · intro h2
      exact absurd h2 h

/-- C10: the age derivation equals the calendar-age formula of the
spec for every pair of dates — current year minus birth year, minus one
exactly when the (month, day) pair of the current date precedes that of
the birth date lexicographically — it can be negative for prenatal
entries, and it depends on nothing but the two dates. -/
theorem calculate_age_is_calendar_age :
    (∀ b t : SimpleDate, calculate_age b t = calendarAgeSpec b t)
    ∧ calculate_age ⟨2025, 6, 1⟩ ⟨2024, 10, 12⟩ < 0 := by
  constructor
  · intro b t
    unfold calculate_age calendarAgeSpec
    by_cases h : pairLt (t.month, t.day) (b.month, b.day) = true
    · rw [if_pos h, if_pos h]
    · rw [if_neg h, if_neg h, sub_zero]
  · decide

/-! Feasibility of the witness scenario df3 / caps3 / v3. -/

theorem feasible3min : feasible df3 caps3 0 0 (some lim3) none v3 := by
  constructor
  · refine ⟨?_, ?_, ?_⟩ <;>
      simp [unassignedIndices, unassignedFrom, df3, caps3, groupNames, ageClasses,
        pdUnique, pdUniqueAux, rowAt, dfltRow, v3]
  · intro c hc
    simp [allCons, genderCons, ageCons, minAgeCons, maxAgeCons,
      singleAssignCons, capacityCons, unassignedIndices, unassignedFrom, df3, caps3,
      lim3, groupNames, fixedCount, capOf, rowAt, dfltRow, List.lookup] at hc
    rcases hc with rfl | rfl | rfl | rfl | rfl <;>
      simp [LinCon.holds, LinExp.eval, v3, fixedCount, df3, capOf, caps3,
        List.filter_cons, List.filter_nil, List.lookup]

theorem feasible3 : feasible df3 caps3 0 0 none none v3 := by
  constructor
  · exact feasible3min.1
  · intro c hc
    refine feasible3min.2 c ?_
    simp only [allCons, List.mem_append] at hc ⊢
    rcases hc with ((((hc | hc) | hc) | hc) | hc) | hc
    · exact Or.inl (Or.inl (Or.inl (Or.inl (Or.inl hc))))
    · exact Or.inl (Or.inl (Or.inl (Or.inl (Or.inr hc))))
    · exact Or.inl (Or.inl (Or.inl (Or.inr hc)))
    · exact Or.inl (Or.inl (Or.inr hc))
    · simp [minAgeCons] at hc
    · simp [maxAgeCons] at hc

/-! Witnesses instantiating the hypothesis-bearing theorems at concrete
inputs. -/

theorem zero_weight_structural_witness :
    genderCons df3 caps3 0 = [] ∧ ageCons df3 caps3 0 = [] :=
  ⟨((zero_weight_structural df3 caps3 1 0 0 1 1 none none).1 rfl).1,
   ((zero_weight_structural df3 caps3 1 0 0 1 1 none none).2 rfl).1⟩

theorem single_assignment_witness :
    ((groupNames caps3).map (fun j => v3 (VarId.assign 0 j))).sum = 1
    ∧ ∃! j, j ∈ groupNames caps3 ∧ v3 (VarId.assign 0 j) = 1 :=
  single_assignment_at_feasible df3 caps3 0 0 none none v3 feasible3 0 (by decide)

theorem capacity_witness :
    (fixedCount df3 "A" : Rat)
      + ((unassignedIndices df3).countP (fun i => decide (v3 (VarId.assign i "A") = 1)) : Rat)
      ≤ (capOf caps3 "A" : Rat) :=
  capacity_at_feasible df3 caps3 0 0 none none v3 feasible3 "A" (by decide)

theorem age_limits_witness : v3 (VarId.assign 0 "B") = 0 :=
  (age_limits_at_feasible df3 caps3 0 0 (some lim3) none v3 feasible3min).1
    lim3 rfl "B" (by decide) 5 (by decide) 0 (by decide) (by decide)

theorem points_term_witness :
    (LinExp.smul 1 (pointsExp df3 caps3)).eval v3
      = 1 * ((unassignedIndices df3).map (fun i => (rowAt df3 i).gesamtpunkte)).sum :=
  points_term_constant df3 caps3 1 v3 (by
    intro i hi
    have h2 : i = 0 ∨ i = 1 := by
      simpa [unassignedIndices, unassignedFrom, df3] using hi
    rcases h2 with rfl | rfl <;> simp [groupNames, caps3, v3])

/-- One fixed person; validation passes and there is nothing to assign. -/
def df8 : DataFrame :=
  ⟨["Gruppe", "Age", "Geschlecht", "Gesamtpunkte"],
   [⟨some "G1", 4, "männlich", 1, none, none⟩]⟩

/-- An empty DataFrame with no columns at all. -/
def dfEmpty : DataFrame := ⟨[], []⟩

theorem fixed_rows_pass_through_witness :
    (unassignedIndices df8 = [] → df8 = df8)
    ∧ (∀ (i : Nat) (r : Row), df8.rows[i]? = some r → r.gruppe.isSome
        → df8.rows[i]? = some r)
    ∧ (df8.cols = df8.cols ∨ df8.cols = auditAddCols df8.cols) :=
  fixed_rows_pass_through df8 caps7 1 0 0 0 none none 1 1 (fun _ _ => none) "t" df8
    (by rfl)

theorem validation_error_witness :
    (∃ msg, optimize_group_assignment dfEmpty caps7 1 0 0 0 none none 1 1
        (fun _ _ => none) "t" = Except.error msg)
    ∧ optimize_group_assignment df8 caps7 1 0 0 0 none none 1 1 (fun _ _ => none) "t"
        = Except.ok (materialize df8 (groupNames caps7) (unassignedIndices df8) "t"
            (fun _ _ => none)) :=
  ⟨(validation_error_iff dfEmpty caps7 1 0 0 0 none none 1 1 (fun _ _ => none) "t").1.mpr
      (by decide),
   (validation_error_iff df8 caps7 1 0 0 0 none none 1 1 (fun _ _ => none) "t").2
      (by decide)⟩

end Kita
